import Mathlib

/-!
Verification development for the dashboard code-generation graph
(`vizro-ai/src/vizro_ai/dashboard/graph/code_generation.py`).

Python strings are modelled as `List Char` (`PyStr`); the string
operations used by the source (`str.lower`, `re.sub(r"\W+", "_", ·)`,
`str.strip("_")`) are modelled over the ASCII fragment of Python's
semantics: `\w` is `[A-Za-z0-9_]` and `lower` maps `A`-`Z` to `a`-`z`.
-/

/-- Python strings, modelled as lists of characters. -/
abbrev PyStr := List Char

/-- ASCII test for Python's regex word class `\w`: letters, digits or
underscore (character codes 65-90, 97-122, 48-57, 95). -/
def isWordChar (c : Char) : Bool :=
  (decide (65 ≤ c.toNat) && decide (c.toNat ≤ 90)) ||
  (decide (97 ≤ c.toNat) && decide (c.toNat ≤ 122)) ||
  (decide (48 ≤ c.toNat) && decide (c.toNat ≤ 57)) ||
  decide (c.toNat = 95)

/-- Characters allowed by the identifier pattern `[a-z0-9_]`. -/
def identChar (c : Char) : Bool :=
  (decide (97 ≤ c.toNat) && decide (c.toNat ≤ 122)) ||
  (decide (48 ≤ c.toNat) && decide (c.toNat ≤ 57)) ||
  decide (c.toNat = 95)

/-- Test for the full identifier pattern `^[a-z0-9_]+$`: non-empty and
every character in the class. -/
def matchesIdentPattern (s : PyStr) : Bool :=
  !s.isEmpty && s.all identChar

/-- Model of Python `str.lower()` (ASCII fragment), using Lean's
per-character `Char.toLower`. -/
def pyLower (s : PyStr) : PyStr :=
  s.map Char.toLower

/-- Model of `re.sub(r"\W+", "_", s)`: replace every maximal run of
non-word characters with a single underscore.  The Boolean argument
records whether the previous character was part of a non-word run. -/
def collapseNonWordAux : Bool → PyStr → PyStr
  | _, [] => []
  | prevNonWord, c :: cs =>
    if isWordChar c then c :: collapseNonWordAux false cs
    else if prevNonWord then collapseNonWordAux true cs
    else '_' :: collapseNonWordAux true cs

/-- Replace every maximal run of non-word characters with one underscore
(entry point of the model of `re.sub(r"\W+", "_", s)`). -/
def collapseNonWord (s : PyStr) : PyStr :=
  collapseNonWordAux false s

/-- Model of Python `str.strip("_")`: drop underscores from both ends. -/
def pyStripUnderscore (s : PyStr) : PyStr :=
  (((s.dropWhile fun c => decide (c.toNat = 95)).reverse.dropWhile
      fun c => decide (c.toNat = 95)).reverse)

/-- Name normalization performed by `_store_df_info`
(`code_generation.py` lines 94-96): lower-case, collapse every maximal
run of non-word characters to one underscore, strip underscores from
both ends. -/
def clean_df_name (s : PyStr) : PyStr :=
  pyStripUnderscore (collapseNonWord (pyLower s))

theorem char_toNat_inj {a b : Char} (h : a.toNat = b.toNat) : a = b := by
  apply Char.ext
  exact UInt32.ext_iff.mpr h

theorem toNat_ofNat_valid (n : Nat) (h : n.isValidChar) : (Char.ofNat n).toNat = n := by
  simp [Char.ofNat, h]
  exact rfl

theorem toLower_toNat (c : Char) :
    (Char.toLower c).toNat =
      if 65 ≤ c.toNat ∧ c.toNat ≤ 90 then c.toNat + 32 else c.toNat := by
  unfold Char.toLower
  split
  · next h =>
    rw [if_pos (by omega)]
    exact toNat_ofNat_valid _ (Or.inl (by omega))
  · next h => rw [if_neg (by omega)]

theorem toLower_not_upper (c : Char) :
    ¬(65 ≤ (Char.toLower c).toNat ∧ (Char.toLower c).toNat ≤ 90) := by
  rw [toLower_toNat]
  split <;> omega

theorem toLower_toLower (c : Char) : (Char.toLower c).toLower = Char.toLower c := by
  apply char_toNat_inj
  rw [toLower_toNat (Char.toLower c)]
  rw [if_neg (toLower_not_upper c)]

theorem isWordChar_iff (c : Char) :
    isWordChar c = true ↔
      (65 ≤ c.toNat ∧ c.toNat ≤ 90) ∨ (97 ≤ c.toNat ∧ c.toNat ≤ 122) ∨
      (48 ≤ c.toNat ∧ c.toNat ≤ 57) ∨ c.toNat = 95 := by
  simp [isWordChar]
  tauto

theorem identChar_iff (c : Char) :
    identChar c = true ↔
      (97 ≤ c.toNat ∧ c.toNat ≤ 122) ∨ (48 ≤ c.toNat ∧ c.toNat ≤ 57) ∨
      c.toNat = 95 := by
  simp [identChar]
  tauto

theorem identChar_word_notUpper {c : Char} (hw : isWordChar c = true)
    (hu : ¬(65 ≤ c.toNat ∧ c.toNat ≤ 90)) : identChar c = true := by
  rw [isWordChar_iff] at hw
  rw [identChar_iff]
  omega

theorem identChar_isWordChar {c : Char} (h : identChar c = true) :
    isWordChar c = true := by
  rw [identChar_iff] at h
  rw [isWordChar_iff]
  omega

theorem underscore_toNat : ('_').toNat = 95 := rfl

theorem identChar_toLower_fix {c : Char} (h : identChar c = true) :
    Char.toLower c = c := by
  apply char_toNat_inj
  rw [toLower_toNat]
  rw [identChar_iff] at h
  rw [if_neg (by omega)]

theorem mem_collapseAux_wordChar {c : Char} :
    ∀ (b : Bool) (s : PyStr), c ∈ collapseNonWordAux b s → isWordChar c = true := by
  intro b s
  induction s generalizing b with
  | nil => intro h; simp [collapseNonWordAux] at h
  | cons a t ih =>
    intro h
    unfold collapseNonWordAux at h
    by_cases hw : isWordChar a = true
    · rw [if_pos hw] at h
      rcases List.mem_cons.mp h with h1 | h1
      · exact h1 ▸ hw
      · exact ih false h1
    · rw [if_neg hw] at h
      by_cases hb : b = true
      · rw [if_pos hb] at h
        exact ih true h
      · rw [if_neg hb] at h
        rcases List.mem_cons.mp h with h1 | h1
        · subst h1
          rw [isWordChar_iff, underscore_toNat]
          omega
        · exact ih true h1

theorem collapseAux_of_allWord {s : PyStr} (hall : ∀ c ∈ s, isWordChar c = true) :
    ∀ b, collapseNonWordAux b s = s := by
  induction s with
  | nil => intro b; rfl
  | cons a t ih =>
    intro b
    unfold collapseNonWordAux
    rw [if_pos (hall a (List.mem_cons_self a t))]
    rw [ih (fun c hc => hall c (List.mem_cons_of_mem a hc)) false]

theorem mem_pyStrip {c : Char} {s : PyStr} (h : c ∈ pyStripUnderscore s) : c ∈ s := by
  unfold pyStripUnderscore at h
  rw [List.mem_reverse] at h
  have h1 := (List.dropWhile_sublist _).mem h
  rw [List.mem_reverse] at h1
  exact (List.dropWhile_sublist _).mem h1

theorem mem_collapseAux_sub {c : Char} :
    ∀ (b : Bool) (s : PyStr), c ∈ collapseNonWordAux b s → c ∈ s ∨ c = '_' := by
  intro b s
  induction s generalizing b with
  | nil => intro h; simp [collapseNonWordAux] at h
  | cons a t ih =>
    intro h
    unfold collapseNonWordAux at h
    by_cases hw : isWordChar a = true
    · rw [if_pos hw] at h
      rcases List.mem_cons.mp h with h1 | h1
      · exact Or.inl (h1 ▸ List.mem_cons_self a t)
      · rcases ih false h1 with h2 | h2
        · exact Or.inl (List.mem_cons_of_mem a h2)
        · exact Or.inr h2
    · rw [if_neg hw] at h
      by_cases hb : b = true
      · rw [if_pos hb] at h
        rcases ih true h with h2 | h2
        · exact Or.inl (List.mem_cons_of_mem a h2)
        · exact Or.inr h2
      · rw [if_neg hb] at h
        rcases List.mem_cons.mp h with h1 | h1
        · exact Or.inr h1
        · rcases ih true h1 with h2 | h2
          · exact Or.inl (List.mem_cons_of_mem a h2)
          · exact Or.inr h2

theorem mem_clean_identChar {c : Char} {s : PyStr} (h : c ∈ clean_df_name s) :
    identChar c = true := by
  unfold clean_df_name at h
  have hmem := mem_pyStrip h
  have hword := mem_collapseAux_wordChar false (pyLower s) hmem
  rcases mem_collapseAux_sub false (pyLower s) hmem with h1 | h1
  · rcases List.mem_map.mp h1 with ⟨a, _, ha⟩
    exact identChar_word_notUpper hword (ha ▸ toLower_not_upper a)
  · subst h1
    rw [identChar_iff, underscore_toNat]
    omega

theorem head_dropWhile_not {p : Char → Bool} {l : PyStr} {a : Char}
    (h : (l.dropWhile p).head? = some a) : p a = false := by
  induction l with
  | nil => simp [List.dropWhile] at h
  | cons x t ih =>
    rw [List.dropWhile_cons] at h
    by_cases hp : p x = true
    · rw [if_pos hp] at h
      exact ih h
    · rw [if_neg hp] at h
      simp at h
      subst h
      simpa using hp

theorem dropWhile_eq_self_of_head {p : Char → Bool} {l : PyStr}
    (h : ∀ a, l.head? = some a → p a = false) : l.dropWhile p = l := by
  cases l with
  | nil => rfl
  | cons x t =>
    rw [List.dropWhile_cons, if_neg]
    simp [h x rfl]

theorem dropWhile_dropWhile {p : Char → Bool} (l : PyStr) :
    (l.dropWhile p).dropWhile p = l.dropWhile p := by
  apply dropWhile_eq_self_of_head
  intro a ha
  exact head_dropWhile_not ha

theorem getLast_dropWhile {p : Char → Bool} {l : PyStr} {a : Char}
    (h : l.getLast? = some a) (hp : p a = false) :
    (l.dropWhile p).getLast? = some a := by
  induction l with
  | nil => simp at h
  | cons x t ih =>
    rw [List.dropWhile_cons]
    by_cases hpx : p x = true
    · rw [if_pos hpx]
      cases t with
      | nil =>
        simp at h
        subst h
        rw [hpx] at hp
        cases hp
      | cons y u =>
        rw [List.getLast?_cons_cons] at h
        exact ih h
    · rw [if_neg hpx]
      exact h

theorem pyStrip_getLast_not {l : PyStr} {a : Char}
    (h : (pyStripUnderscore l).getLast? = some a) : a.toNat ≠ 95 := by
  unfold pyStripUnderscore at h
  rw [List.getLast?_reverse] at h
  have := head_dropWhile_not h
  simpa using this

theorem pyStrip_head_not {l : PyStr} {a : Char}
    (h : (pyStripUnderscore l).head? = some a) : a.toNat ≠ 95 := by
  unfold pyStripUnderscore at h
  rw [List.head?_reverse] at h
  cases hh : (l.dropWhile fun c => decide (c.toNat = 95)).head? with
  | none =>
    rw [List.head?_eq_none_iff] at hh
    rw [hh] at h
    simp at h
  | some b =>
    have hb : (decide (b.toNat = 95)) = false := head_dropWhile_not hh
    have hrev : ((l.dropWhile fun c => decide (c.toNat = 95)).reverse).getLast? = some b := by
      rw [List.getLast?_reverse]
      exact hh
    have := getLast_dropWhile (p := fun c => decide (c.toNat = 95)) hrev hb
    rw [this] at h
    simp at h
    subst h
    simpa using hb

theorem pyStrip_idem (l : PyStr) :
    pyStripUnderscore (pyStripUnderscore l) = pyStripUnderscore l := by
  unfold pyStripUnderscore
  have h1 : ((((l.dropWhile fun c => decide (c.toNat = 95)).reverse.dropWhile
      fun c => decide (c.toNat = 95)).reverse).dropWhile
      fun c => decide (c.toNat = 95)) =
      (((l.dropWhile fun c => decide (c.toNat = 95)).reverse.dropWhile
      fun c => decide (c.toNat = 95)).reverse) := by
    apply dropWhile_eq_self_of_head
    intro a ha
    have : a.toNat ≠ 95 := pyStrip_head_not (l := l) ha
    simpa using this
  rw [h1, List.reverse_reverse, dropWhile_dropWhile]

theorem map_toLower_of_ident {l : PyStr} (h : ∀ c ∈ l, identChar c = true) :
    pyLower l = l := by
  unfold pyLower
  induction l with
  | nil => rfl
  | cons a t ih =>
    rw [List.map_cons]
    rw [identChar_toLower_fix (h a (List.mem_cons_self a t))]
    rw [ih (fun c hc => h c (List.mem_cons_of_mem a hc))]

theorem clean_df_name_fixes (s : PyStr) :
    clean_df_name (clean_df_name s) = clean_df_name s := by
  have h1 : pyLower (clean_df_name s) = clean_df_name s :=
    map_toLower_of_ident (fun c hc => mem_clean_identChar hc)
  have h2 : collapseNonWord (clean_df_name s) = clean_df_name s :=
    collapseAux_of_allWord
      (fun c hc => identChar_isWordChar (mem_clean_identChar hc)) false
  have h3 : pyStripUnderscore (clean_df_name s) = clean_df_name s :=
    pyStrip_idem (collapseNonWord (pyLower s))
  calc clean_df_name (clean_df_name s)
      = pyStripUnderscore (collapseNonWord (pyLower (clean_df_name s))) := rfl
    _ = pyStripUnderscore (collapseNonWord (clean_df_name s)) := by rw [h1]
    _ = pyStripUnderscore (clean_df_name s) := by rw [h2]
    _ = clean_df_name s := h3

/-- Python runtime value appearing in the `dfs` list: either a pandas
`DataFrame` (identified by an opaque tag) or some other object.  The
pydantic validator `GraphState.check_dataframes` distinguishes exactly
these two cases via `isinstance(df, pd.DataFrame)`. -/
inductive PyVal where
  | df (tag : Nat)
  | other (tag : Nat)
deriving DecidableEq, Repr

/-- Test mirroring `isinstance(df, pd.DataFrame)`. -/
def PyVal.isDataFrame : PyVal → Bool
  | .df _ => true
  | .other _ => false

/-- Conversation message; only the `content` attribute is read by the
graph (`state.messages[0].content`). -/
structure BaseMessage where
  content : PyStr
deriving DecidableEq, Repr

/-- Structured-completion result of the dataset-summary call
(`DfInfo` in `vizro_ai.dashboard.nodes.data_summary`): carries the
LLM-assigned `dataset_name`. -/
structure DfInfo where
  dataset_name : PyStr
deriving DecidableEq, Repr

/-- Schema descriptor: column name to type tag. -/
abbrev Schema := List (PyStr × PyStr)

/-- Value stored by `_store_df_info` for each dataset identifier:
`{"df_schema": df_schema, "df": df}`. -/
structure DfMeta where
  df_schema : Schema
  df : PyVal
deriving DecidableEq, Repr

/-- The `df_metadata` mapping: a Python dict keyed by cleaned dataframe
name, modelled as an association list in insertion order. -/
abbrev DfMetadata := List (PyStr × DfMeta)

/-- Python dict assignment `m[k] = v`: overwrite in place when the key
exists (keeping its original position), otherwise append. -/
def dictInsert (m : DfMetadata) (k : PyStr) (v : DfMeta) : DfMetadata :=
  if m.any fun p => decide (p.1 = k) then
    m.map fun p => if p.1 = k then (k, v) else p
  else m ++ [(k, v)]

/-- One page plan inside a dashboard plan; opaque to the orchestration
graph (only passed through to the page builder). -/
structure PagePlanner where
  tag : Nat
deriving DecidableEq, Repr

/-- Dashboard plan (`DashboardPlanner` in `vizro_ai.dashboard.nodes.plan`):
a title and an ordered sequence of page plans.  Only these two fields
are read by the graph. -/
structure DashboardPlanner where
  title : PyStr
  pages : List PagePlanner
deriving DecidableEq, Repr

/-- Built Vizro page; opaque to the orchestration graph. -/
structure Page where
  content : Nat
deriving DecidableEq, Repr

/-- Modelled from the spec: the final dashboard object (`vm.Dashboard`,
whose model is not under `src/`).  Per the spec the Assembler "produces
one dashboard object with `title = dashboard_plan.title` and
`pages = pages`". -/
structure Dashboard where
  title : PyStr
  pages : List Page
deriving DecidableEq, Repr

/-- Python exceptions surfaced by the modelled stages: the IndexError of
`state.messages[0]` on an empty list, the AttributeError of reading
`.pages`/`.title` on `None`, and pydantic/LLM validation errors. -/
inductive PyErr where
  | indexError
  | attributeError
  | validationError (msg : PyStr)
deriving DecidableEq, Repr

/-- Argument record of one structured-completion request issued by
`_store_df_info` (the dict passed to `data_sum_chain.invoke`). -/
structure DfLlmCall where
  messages : List BaseMessage
  df_schema : Schema
  df_sample : PyStr
  current_df_names : List DfInfo
deriving DecidableEq, Repr

/-- External collaborators of the orchestration graph, fixed for a run:
the schema/sample extraction `_get_df_info`, the structured-completion
service behind the summarizer chain and `_get_dashboard_plan`, and the
`PageBuilder`.  All are plain functions, so a run is driven by a
deterministic stub by construction.  `dfLlm`, `planLlm` and the builder
are not under `src/`; their call shapes follow the source call sites and
the spec's structured-completion contract. -/
structure Env where
  getDfInfo : PyVal → Schema × PyStr
  dfLlm : DfLlmCall → Except PyErr DfInfo
  planLlm : PyStr → DfMetadata → Except PyErr DashboardPlanner
  buildPage : PagePlanner → DfMetadata → Page

/-- Shared graph state (`GraphState` in `code_generation.py`):
`messages`, `dfs`, `df_metadata`, optional `dashboard_plan` (default
`None`), the `pages` channel merged with `operator.add`, and the
optional `dashboard` (default `None`). -/
structure GraphState where
  messages : List BaseMessage
  dfs : List PyVal
  df_metadata : DfMetadata
  dashboard_plan : Option DashboardPlanner := none
  pages : List Page
  dashboard : Option Dashboard := none
deriving DecidableEq, Repr

/-- Pydantic validator on `dfs`: raise unless every element is a
DataFrame; return the list unchanged.  (The `isinstance(v, list)` guard
is vacuous here because the model types `dfs` as a list.) -/
def check_dataframes (v : List PyVal) : Except PyStr (List PyVal) :=
  if v.all PyVal.isDataFrame then .ok v
  else .error ("Each element in dfs must be a Pandas DataFrame".toList)

/-- Construction of a `GraphState` (pydantic `__init__`): the only
declared validator runs on `dfs`; `messages`, `df_metadata` and `pages`
are accepted as given, and `dashboard_plan`/`dashboard` default to
`None`. -/
def GraphState.construct (messages : List BaseMessage) (dfs : List PyVal)
    (df_metadata : DfMetadata) (pages : List Page) :
    Except PyStr GraphState :=
  match check_dataframes dfs with
  | .error e => .error e
  | .ok v =>
    .ok { messages := messages, dfs := v, df_metadata := df_metadata,
          dashboard_plan := none, pages := pages, dashboard := none }

/-- Loop body of `_store_df_info`: process the remaining dataframes in
order, threading `current_df_names` (the list the source appends each
raw `df_name` result to before the next request) and the metadata dict.
Besides the final `df_metadata`, the model returns the sequence of
structured-completion requests issued and the final `current_df_names`,
so that theorems can speak about the calls the stage makes. -/
def storeDfLoop (env : Env) (messages : List BaseMessage) :
    List PyVal → List DfInfo → DfMetadata →
    Except PyErr (DfMetadata × List DfLlmCall × List DfInfo)
  | [], names, meta => .ok (meta, [], names)
  | df :: rest, names, meta =>
    match env.dfLlm
        ⟨messages, (env.getDfInfo df).1, (env.getDfInfo df).2, names⟩ with
    | .error e => .error e
    | .ok df_name =>
      match storeDfLoop env messages rest (names ++ [df_name])
          (dictInsert meta (clean_df_name df_name.dataset_name)
            ⟨(env.getDfInfo df).1, df⟩) with
      | .error e => .error e
      | .ok (m, calls, ns) =>
        .ok (m,
          ⟨messages, (env.getDfInfo df).1, (env.getDfInfo df).2, names⟩ ::
            calls, ns)

/-- Node `_store_df_info`: iterate over `state.dfs` starting from the
state's `df_metadata` and an empty `current_df_names`, returning the
updated metadata (the node's `{"df_metadata": df_metadata}` update)
together with the request trace. -/
def store_df_info (env : Env) (state : GraphState) :
    Except PyErr (DfMetadata × List DfLlmCall × List DfInfo) :=
  storeDfLoop env state.messages state.dfs [] state.df_metadata

/-- Node `_dashboard_plan`: read `state.messages[0].content` (an
IndexError on an empty list) and request a dashboard plan from the
completion service with the query and `state.df_metadata`. -/
def dashboard_plan (env : Env) (state : GraphState) :
    Except PyErr DashboardPlanner :=
  match state.messages with
  | [] => .error .indexError
  | m :: _ => env.planLlm m.content state.df_metadata

/-- Payload of one `Send(node="_build_page", arg=...)` emitted by
`_continue_to_pages`: a page plan plus the shared dataset metadata. -/
structure SendPacket where
  page_plan : PagePlanner
  df_metadata : DfMetadata
deriving DecidableEq, Repr

/-- Transition `_continue_to_pages`: one `Send` per element of
`state.dashboard_plan.pages`, in plan order, each carrying that page
plan and `state.df_metadata`.  Reading `.pages` on an unset plan
(`None`) raises an AttributeError. -/
def continue_to_pages (state : GraphState) : Except PyErr (List SendPacket) :=
  match state.dashboard_plan with
  | none => .error .attributeError
  | some plan =>
    .ok (plan.pages.map fun v => ⟨v, state.df_metadata⟩)

/-- Node `_build_page`: build one page from a `SendPacket` and return
the single-element `pages` contribution `{"pages": [page]}`. -/
def build_page (env : Env) (s : SendPacket) : List Page :=
  [env.buildPage s.page_plan s.df_metadata]

/-- Node `_build_dashboard`: `vm.Dashboard(title=dashboard_plan.title,
pages=pages)` over the accumulated state (AttributeError if the plan is
unset). -/
def build_dashboard (state : GraphState) : Except PyErr Dashboard :=
  match state.dashboard_plan with
  | none => .error .attributeError
  | some plan => .ok ⟨plan.title, state.pages⟩

/-- Stage at which a run failed. -/
inductive Stage where
  | summarize
  | plan
  | build
  | assemble
deriving DecidableEq, Repr

/-- Observable scheduling events of one graph run. -/
inductive Event where
  | summarized
  | planned
  | spawn (s : SendPacket)
  | build (s : SendPacket)
  | assembled
deriving DecidableEq, Repr

/-- Outcome of a graph run: the event trace, the last shared state, and
the failing stage and exception when the run aborted. -/
structure RunResult where
  trace : List Event
  state : GraphState
  error : Option (Stage × PyErr)
deriving Repr

/-- Modelled from the spec: the scheduler of the compiled graph (the
graph library executing the wiring of `_create_and_compile_graph` is
not under `src/`).  Per the spec the stages run
`summarize → plan → fan-out → parallel page builds → assemble → end`:
the fan-out emits the `Send`s of `continue_to_pages`, the parallel
branches' single-page contributions are merged into the `pages` channel
by list concatenation (`operator.add`) in branch-completion order —
given by `order`, a permutation of the task indices — and the
Assembler runs exactly once, only after every spawned branch has merged
its contribution; any stage exception aborts the run. -/
def runGraph (env : Env) (st0 : GraphState) (order : List Nat) : RunResult :=
  match store_df_info env st0 with
  | .error e => ⟨[], st0, some (.summarize, e)⟩
  | .ok (meta1, _, _) =>
    match dashboard_plan env { st0 with df_metadata := meta1 } with
    | .error e =>
      ⟨[.summarized], { st0 with df_metadata := meta1 }, some (.plan, e)⟩
    | .ok plan =>
      match continue_to_pages
          { st0 with df_metadata := meta1, dashboard_plan := some plan } with
      | .error e =>
        ⟨[.summarized, .planned],
         { st0 with df_metadata := meta1, dashboard_plan := some plan },
         some (.plan, e)⟩
      | .ok tasks =>
        let completed := order.filterMap fun i => tasks[i]?
        let st3 : GraphState :=
          { st0 with
            df_metadata := meta1, dashboard_plan := some plan,
            pages := st0.pages ++
              (completed.map fun s => build_page env s).flatten }
        match build_dashboard st3 with
            | .error e =>
              ⟨[.summarized, .planned] ++ tasks.map Event.spawn ++
                 completed.map Event.build, st3, some (.assemble, e)⟩
            | .ok dash =>
              ⟨[.summarized, .planned] ++ tasks.map Event.spawn ++
                 completed.map Event.build ++ [.assembled],
               { st3 with dashboard := some dash }, none⟩

/-- Run entry point: construct the initial state (pydantic validation
runs here, before any graph stage) and, when construction succeeds,
execute the compiled graph. -/
def invokeGraph (env : Env) (messages : List BaseMessage) (dfs : List PyVal)
    (df_metadata : DfMetadata) (pages : List Page) (order : List Nat) :
    Except PyStr RunResult :=
  match GraphState.construct messages dfs df_metadata pages with
  | .error e => .error e
  | .ok st => .ok (runGraph env st order)

/-- Extract the packet of a spawn event. -/
def Event.spawnPacket? : Event → Option SendPacket
  | .spawn s => some s
  | _ => none

/-- Extract the packet of a build event. -/
def Event.buildPacket? : Event → Option SendPacket
  | .build s => some s
  | _ => none

theorem runGraph_ok (env : Env) (st0 : GraphState) (order : List Nat)
    (meta1 : DfMetadata) (calls : List DfLlmCall) (names : List DfInfo)
    (plan : DashboardPlanner)
    (hstore : store_df_info env st0 = .ok (meta1, calls, names))
    (hplan : dashboard_plan env { st0 with df_metadata := meta1 } = .ok plan) :
    runGraph env st0 order =
      ⟨[.summarized, .planned] ++
         (plan.pages.map fun v => SendPacket.mk v meta1).map Event.spawn ++
         (order.filterMap fun i =>
           (plan.pages.map fun v => SendPacket.mk v meta1)[i]?).map Event.build ++
         [.assembled],
       { st0 with
         df_metadata := meta1, dashboard_plan := some plan,
         pages := st0.pages ++
           ((order.filterMap fun i =>
               (plan.pages.map fun v => SendPacket.mk v meta1)[i]?).map
             fun s => build_page env s).flatten,
         dashboard := some
           ⟨plan.title,
            st0.pages ++
              ((order.filterMap fun i =>
                  (plan.pages.map fun v => SendPacket.mk v meta1)[i]?).map
                fun s => build_page env s).flatten⟩ },
       none⟩ := by
  simp only [runGraph, hstore, hplan, continue_to_pages, build_dashboard]

theorem runGraph_planErr (env : Env) (st0 : GraphState) (order : List Nat)
    (meta1 : DfMetadata) (calls : List DfLlmCall) (names : List DfInfo)
    (e : PyErr)
    (hstore : store_df_info env st0 = .ok (meta1, calls, names))
    (hplan : dashboard_plan env { st0 with df_metadata := meta1 } = .error e) :
    runGraph env st0 order =
      ⟨[.summarized], { st0 with df_metadata := meta1 }, some (.plan, e)⟩ := by
  simp only [runGraph, hstore, hplan]

theorem keys_dictInsert (m : DfMetadata) (k : PyStr) (v : DfMeta) :
    (dictInsert m k v).map Prod.fst =
      if k ∈ m.map Prod.fst then m.map Prod.fst else m.map Prod.fst ++ [k] := by
  unfold dictInsert
  by_cases h : k ∈ m.map Prod.fst
  · rcases List.mem_map.mp h with ⟨p, hp, hk⟩
    have hany : (m.any fun p => decide (p.1 = k)) = true := by
      rw [List.any_eq_true]
      exact ⟨p, hp, by simpa using hk⟩
    rw [if_pos hany, if_pos h, List.map_map]
    apply List.map_congr_left
    intro a _
    by_cases ha : a.1 = k
    · simp [ha]
    · simp [ha]
  · have hany : (m.any fun p => decide (p.1 = k)) = false := by
      rw [Bool.eq_false_iff]
      intro hc
      rcases List.any_eq_true.mp hc with ⟨p, hp, hk⟩
      exact h (List.mem_map.mpr ⟨p, hp, by simpa using hk⟩)
    rw [hany, if_neg h]
    simp

theorem length_dictInsert (m : DfMetadata) (k : PyStr) (v : DfMeta) :
    (dictInsert m k v).length ≤ m.length + 1 := by
  have h := keys_dictInsert m k v
  have h1 : (dictInsert m k v).length = ((dictInsert m k v).map Prod.fst).length :=
    (List.length_map _ _).symm
  rw [h1, h]
  by_cases hm : k ∈ m.map Prod.fst
  · rw [if_pos hm, List.length_map]
    omega
  · rw [if_neg hm, List.length_append, List.length_map]
    simp

theorem nodup_dictInsert (m : DfMetadata) (k : PyStr) (v : DfMeta)
    (h : (m.map Prod.fst).Nodup) : ((dictInsert m k v).map Prod.fst).Nodup := by
  rw [keys_dictInsert]
  by_cases hm : k ∈ m.map Prod.fst
  · rw [if_pos hm]
    exact h
  · rw [if_neg hm]
    rw [List.nodup_append]
    refine ⟨h, List.nodup_singleton k, fun a ha hk => hm ?_⟩
    rwa [List.mem_singleton.mp hk] at ha

theorem mem_keys_dictInsert (m : DfMetadata) (k k' : PyStr) (v : DfMeta) :
    k' ∈ (dictInsert m k v).map Prod.fst ↔ k' ∈ m.map Prod.fst ∨ k' = k := by
  rw [keys_dictInsert]
  by_cases hm : k ∈ m.map Prod.fst
  · rw [if_pos hm]
    constructor
    · exact Or.inl
    · rintro (h | h)
      · exact h
      · exact h ▸ hm
  · rw [if_neg hm]
    rw [List.mem_append, List.mem_singleton]

theorem filterMap_getElem_range (l : List SendPacket) :
    ((List.range l.length).filterMap fun i => l[i]?) = l := by
  induction l with
  | nil => rfl
  | cons a t ih =>
    show ((List.range (t.length + 1)).filterMap fun i => (a :: t)[i]?) = a :: t
    rw [List.range_succ_eq_map]
    rw [List.filterMap_cons]
    simp only [List.getElem?_cons_zero]
    rw [List.filterMap_map]
    have hcomp : ((fun i => (a :: t)[i]?) ∘ Nat.succ) = fun i => t[i]? := by
      funext i
      simp [Function.comp]
    rw [hcomp, ih]

theorem perm_filterMap_getElem (l : List SendPacket) (order : List Nat)
    (h : order.Perm (List.range l.length)) :
    (order.filterMap fun i => l[i]?).Perm l := by
  have hp := List.Perm.filterMap (fun i => l[i]?) h
  rw [filterMap_getElem_range l] at hp
  exact hp

theorem flatten_map_build_page (env : Env) (l : List SendPacket) :
    ((l.map fun s => build_page env s).flatten) =
      l.map fun s => env.buildPage s.page_plan s.df_metadata := by
  induction l with
  | nil => rfl
  | cons a t ih =>
    rw [List.map_cons, List.flatten_cons, ih, List.map_cons]
    rfl

theorem storeDfLoop_calls (env : Env) (msgs : List BaseMessage) :
    ∀ (dfs : List PyVal) (acc : List DfInfo) (meta m : DfMetadata)
      (calls : List DfLlmCall) (names : List DfInfo),
      storeDfLoop env msgs dfs acc meta = .ok (m, calls, names) →
      ∃ newNames : List DfInfo, names = acc ++ newNames ∧
        newNames.length = dfs.length ∧ calls.length = dfs.length ∧
        ∀ i : Nat, calls[i]? =
          (dfs[i]?).map fun df =>
            ⟨msgs, (env.getDfInfo df).1, (env.getDfInfo df).2,
             acc ++ newNames.take i⟩ := by
  intro dfs
  induction dfs with
  | nil =>
    intro acc meta m calls names h
    simp only [storeDfLoop] at h
    obtain ⟨h1, h2, h3⟩ : meta = m ∧ [] = calls ∧ acc = names := by
      cases h
      exact ⟨rfl, rfl, rfl⟩
    exact ⟨[], by simp [h3.symm], rfl, h2 ▸ rfl, by intro i; simp [h2.symm]⟩
  | cons df rest ih =>
    intro acc meta m calls names h
    simp only [storeDfLoop] at h
    split at h
    · cases h
    · next dn hllm =>
      split at h
      · cases h
      · next m2 calls2 ns2 hrec =>
        obtain ⟨hm, hc, hn⟩ : m2 = m ∧
            (⟨msgs, (env.getDfInfo df).1, (env.getDfInfo df).2, acc⟩ :: calls2 :
              List DfLlmCall) = calls ∧ ns2 = names := by
          cases h
          exact ⟨rfl, rfl, rfl⟩
        obtain ⟨nn, hnn, hlen, hclen, hcall⟩ := ih (acc ++ [dn]) _ m2 calls2 ns2 hrec
        refine ⟨dn :: nn, ?_, ?_, ?_, ?_⟩
        · rw [← hn, hnn, List.append_assoc]
          rfl
        · simp [hlen]
        · rw [← hc]
          simp [hclen]
        · intro i
          cases i with
          | zero =>
            rw [← hc]
            simp
          | succ j =>
            rw [← hc]
            simp only [List.getElem?_cons_succ]
            rw [hcall j]
            cases hdf : rest[j]? with
            | none => simp
            | some d =>
              have hstep : acc ++ (dn :: nn).take (j + 1) = acc ++ [dn] ++ nn.take j := by
                rw [List.take_succ_cons, List.append_assoc]
                rfl
              rw [hstep]

theorem storeDfLoop_meta (env : Env) (msgs : List BaseMessage) :
    ∀ (dfs : List PyVal) (acc : List DfInfo) (meta m : DfMetadata)
      (calls : List DfLlmCall) (names : List DfInfo),
      storeDfLoop env msgs dfs acc meta = .ok (m, calls, names) →
      ∃ newNames : List DfInfo, names = acc ++ newNames ∧
        m.length ≤ meta.length + dfs.length ∧
        ((meta.map Prod.fst).Nodup → (m.map Prod.fst).Nodup) ∧
        ∀ k, k ∈ m.map Prod.fst ↔
          k ∈ meta.map Prod.fst ∨
          k ∈ newNames.map fun n => clean_df_name n.dataset_name := by
  intro dfs
  induction dfs with
  | nil =>
    intro acc meta m calls names h
    simp only [storeDfLoop] at h
    obtain ⟨h1, h2, h3⟩ : meta = m ∧ ([] : List DfLlmCall) = calls ∧ acc = names := by
      cases h
      exact ⟨rfl, rfl, rfl⟩
    refine ⟨[], by simp [h3.symm], ?_, ?_, ?_⟩
    · rw [h1, List.length_nil]
      omega
    · rw [h1]
      exact id
    · intro k
      rw [h1]
      simp only [List.map_nil, List.not_mem_nil, or_false]
  | cons df rest ih =>
    intro acc meta m calls names h
    simp only [storeDfLoop] at h
    split at h
    · cases h
    · next dn hllm =>
      split at h
      · cases h
      · next m2 calls2 ns2 hrec =>
        obtain ⟨hm, hc, hn⟩ : m2 = m ∧
            (⟨msgs, (env.getDfInfo df).1, (env.getDfInfo df).2, acc⟩ :: calls2 :
              List DfLlmCall) = calls ∧ ns2 = names := by
          cases h
          exact ⟨rfl, rfl, rfl⟩
        obtain ⟨nn, hnn, hlen2, hnd, hmem⟩ := ih (acc ++ [dn]) _ m2 calls2 ns2 hrec
        refine ⟨dn :: nn, ?_, ?_, ?_, ?_⟩
        · rw [← hn, hnn, List.append_assoc]
          rfl
        · rw [← hm]
          calc m2.length
              ≤ (dictInsert meta (clean_df_name dn.dataset_name)
                  ⟨(env.getDfInfo df).1, df⟩).length + rest.length := hlen2
            _ ≤ meta.length + 1 + rest.length := by
                have := length_dictInsert meta (clean_df_name dn.dataset_name)
                  ⟨(env.getDfInfo df).1, df⟩
                omega
            _ = meta.length + (df :: rest).length := by
                rw [List.length_cons]
                omega
        · intro hnodup
          rw [← hm]
          exact hnd (nodup_dictInsert _ _ _ hnodup)
        · intro k
          rw [← hm]
          rw [hmem k]
          rw [mem_keys_dictInsert]
          simp only [List.map_cons, List.mem_cons]
          tauto

theorem runGraph_storeErr (env : Env) (st0 : GraphState) (order : List Nat)
    (e : PyErr) (hstore : store_df_info env st0 = .error e) :
    runGraph env st0 order = ⟨[], st0, some (.summarize, e)⟩ := by
  simp only [runGraph, hstore]

theorem runGraph_success_dashboard (env : Env) (st0 : GraphState)
    (order : List Nat) (herr : (runGraph env st0 order).error = none) :
    ∃ p, (runGraph env st0 order).state.dashboard_plan = some p ∧
      (runGraph env st0 order).state.dashboard =
        some ⟨p.title, (runGraph env st0 order).state.pages⟩ := by
  cases hstore : store_df_info env st0 with
  | error e =>
    rw [runGraph_storeErr env st0 order e hstore] at herr
    simp at herr
  | ok t =>
    obtain ⟨meta1, calls, names⟩ := t
    cases hplan : dashboard_plan env { st0 with df_metadata := meta1 } with
    | error e =>
      rw [runGraph_planErr env st0 order meta1 calls names e hstore hplan] at herr
      simp at herr
    | ok plan =>
      rw [runGraph_ok env st0 order meta1 calls names plan hstore hplan]
      exact ⟨plan, rfl, rfl⟩

/-- Deterministic stub environment used to instantiate witnesses. -/
def envTrivial : Env :=
  { getDfInfo := fun _ => ([], []),
    dfLlm := fun _ => .ok ⟨[]⟩,
    planLlm := fun _ _ => .ok ⟨[], []⟩,
    buildPage := fun _ _ => ⟨0⟩ }

/-- C5: the name normalization of `_store_df_info` (lower-case, collapse
each maximal run of non-word characters to a single underscore, strip
leading and trailing underscores) is idempotent: for every string `s`,
`normalize (normalize s) = normalize s`. -/
theorem C5_normalization_idempotent (s : PyStr) :
    clean_df_name (clean_df_name s) = clean_df_name s :=
  clean_df_name_fixes s

/-- C8: if the `dfs` list passed to `GraphState` construction contains an
element that is not a pandas DataFrame, construction (and hence a run
started from it) fails with the validation error, before any graph stage
runs; if every element is a DataFrame, construction succeeds and leaves
the list unchanged. -/
theorem C8_construct_validation (env : Env) (messages : List BaseMessage)
    (dfs : List PyVal) (meta : DfMetadata) (pages : List Page)
    (order : List Nat) :
    ((∃ x ∈ dfs, x.isDataFrame = false) →
      GraphState.construct messages dfs meta pages =
        .error ("Each element in dfs must be a Pandas DataFrame".toList) ∧
      invokeGraph env messages dfs meta pages order =
        .error ("Each element in dfs must be a Pandas DataFrame".toList)) ∧
    ((∀ x ∈ dfs, x.isDataFrame = true) →
      GraphState.construct messages dfs meta pages =
        .ok ⟨messages, dfs, meta, none, pages, none⟩) := by
  constructor
  · rintro ⟨x, hx, hbad⟩
    have hall : dfs.all PyVal.isDataFrame = false := by
      rw [Bool.eq_false_iff]
      intro hc
      rw [List.all_eq_true] at hc
      rw [hc x hx] at hbad
      cases hbad
    have hcon : GraphState.construct messages dfs meta pages =
        .error ("Each element in dfs must be a Pandas DataFrame".toList) := by
      simp only [GraphState.construct, check_dataframes, hall]
      rfl
    refine ⟨hcon, ?_⟩
    simp only [invokeGraph, hcon]
  · intro hall
    have h1 : dfs.all PyVal.isDataFrame = true := List.all_eq_true.mpr hall
    simp only [GraphState.construct, check_dataframes, h1]
    rfl

/-- Closed witness for C8: a non-DataFrame input is rejected with the
validation message, and an all-DataFrame input is accepted unchanged. -/
theorem C8_construct_validation_witness :
    GraphState.construct [] [PyVal.other 0] [] [] =
      .error ("Each element in dfs must be a Pandas DataFrame".toList) ∧
    GraphState.construct [] [PyVal.df 0] [] [] =
      .ok ⟨[], [PyVal.df 0], [], none, [], none⟩ :=
  ⟨((C8_construct_validation envTrivial [] [PyVal.other 0] [] [] []).1
      ⟨PyVal.other 0, List.mem_singleton.mpr rfl, rfl⟩).1,
   (C8_construct_validation envTrivial [] [PyVal.df 0] [] [] []).2
      (by decide)⟩

/-- C4: given that `dashboard_plan` is set, `_build_dashboard` produces
exactly one dashboard whose title is `dashboard_plan.title` and whose
pages are exactly the accumulated `pages` in accumulated order; in every
successful run the scheduler stores that dashboard in the `dashboard`
field of the shared state. -/
theorem C4_assembler (st : GraphState) (plan : DashboardPlanner)
    (hplan : st.dashboard_plan = some plan) :
    build_dashboard st = .ok ⟨plan.title, st.pages⟩ ∧
    ∀ (env : Env) (st0 : GraphState) (order : List Nat),
      (runGraph env st0 order).error = none →
      ∃ p, (runGraph env st0 order).state.dashboard_plan = some p ∧
        (runGraph env st0 order).state.dashboard =
          some ⟨p.title, (runGraph env st0 order).state.pages⟩ := by
  constructor
  · simp only [build_dashboard, hplan]
  · intro env st0 order herr
    exact runGraph_success_dashboard env st0 order herr

/-- Closed witness for C4: the assembler applied to a state holding a
plan and one collected page. -/
theorem C4_assembler_witness :
    build_dashboard
        ⟨[], [], [], some ⟨['t'], []⟩, [⟨7⟩], none⟩ =
      .ok ⟨['t'], [⟨7⟩]⟩ :=
  (C4_assembler ⟨[], [], [], some ⟨['t'], []⟩, [⟨7⟩], none⟩ ⟨['t'], []⟩ rfl).1

/-- C10: `GraphState` construction does not validate `messages` (an empty
list is accepted; only `dfs` is checked), the planner's read of the first
message is safe exactly when `messages` is non-empty, and a run started
with zero messages passes the summarize stage and fails inside the
planning stage with an IndexError. -/
theorem C10_messages_not_validated (env : Env) (dfs : List PyVal)
    (meta : DfMetadata) (pages : List Page) (st : GraphState)
    (order : List Nat) (meta1 : DfMetadata) (calls : List DfLlmCall)
    (names : List DfInfo)
    (hdfs : ∀ x ∈ dfs, x.isDataFrame = true)
    (hmsg : st.messages = [])
    (hsum : store_df_info env st = .ok (meta1, calls, names)) :
    GraphState.construct [] dfs meta pages =
      .ok ⟨[], dfs, meta, none, pages, none⟩ ∧
    dashboard_plan env st = .error .indexError ∧
    (∀ (st2 : GraphState) (m : BaseMessage) (ms : List BaseMessage),
      st2.messages = m :: ms →
      dashboard_plan env st2 = env.planLlm m.content st2.df_metadata) ∧
    runGraph env st order =
      ⟨[.summarized], { st with df_metadata := meta1 },
       some (.plan, .indexError)⟩ := by
  refine ⟨?_, ?_, ?_, ?_⟩
  · have h1 : dfs.all PyVal.isDataFrame = true := List.all_eq_true.mpr hdfs
    simp only [GraphState.construct, check_dataframes, h1]
    rfl
  · simp only [dashboard_plan, hmsg]
  · intro st2 m ms hm
    simp only [dashboard_plan, hm]
  · have hplan : dashboard_plan env { st with df_metadata := meta1 } =
        .error .indexError := by
      simp only [dashboard_plan, hmsg]
    exact runGraph_planErr env st order meta1 calls names .indexError hsum hplan

/-- Closed witness for C10: the empty-messages state is constructed and
fails at planning with an IndexError. -/
theorem C10_messages_not_validated_witness :
    runGraph envTrivial ⟨[], [], [], none, [], none⟩ [] =
      ⟨[.summarized], ⟨[], [], [], none, [], none⟩,
       some (.plan, .indexError)⟩ :=
  (C10_messages_not_validated envTrivial [] [] [] ⟨[], [], [], none, [], none⟩
    [] [] [] [] (by intro x hx; cases hx) rfl rfl).2.2.2

/-- C6: when the structured-completion service raises a validation error
during planning, the run aborts with a planning-stage error, the
`dashboard` field stays unset, no build task is spawned and the
assembler never runs. -/
theorem C6_planning_validation_error (env : Env) (st : GraphState)
    (order : List Nat) (msg : PyStr) (meta1 : DfMetadata)
    (calls : List DfLlmCall) (names : List DfInfo)
    (m : BaseMessage) (ms : List BaseMessage)
    (hstore : store_df_info env st = .ok (meta1, calls, names))
    (hmsgs : st.messages = m :: ms)
    (hplan : env.planLlm m.content meta1 = .error (.validationError msg))
    (hdash : st.dashboard = none) :
    (runGraph env st order).error = some (.plan, .validationError msg) ∧
    (runGraph env st order).state.dashboard = none ∧
    (∀ s, Event.spawn s ∉ (runGraph env st order).trace) ∧
    Event.assembled ∉ (runGraph env st order).trace := by
  have hplan2 : dashboard_plan env { st with df_metadata := meta1 } =
      .error (.validationError msg) := by
    simp only [dashboard_plan, hmsgs]
    exact hplan
  rw [runGraph_planErr env st order meta1 calls names _ hstore hplan2]
  refine ⟨rfl, hdash, ?_, ?_⟩
  · intro s hs
    simp at hs
  · intro hs
    simp at hs

/-- Closed witness for C6: a planner stub that raises a validation error
aborts the run at the planning stage with the dashboard unset. -/
theorem C6_planning_validation_error_witness :
    (runGraph
        ⟨fun _ => ([], []), fun _ => .ok ⟨[]⟩,
         fun _ _ => .error (.validationError ['b']), fun _ _ => ⟨0⟩⟩
        ⟨[⟨['q']⟩], [], [], none, [], none⟩ []).error =
      some (.plan, .validationError ['b']) ∧
    (runGraph
        ⟨fun _ => ([], []), fun _ => .ok ⟨[]⟩,
         fun _ _ => .error (.validationError ['b']), fun _ _ => ⟨0⟩⟩
        ⟨[⟨['q']⟩], [], [], none, [], none⟩ []).state.dashboard = none := by
  have h := C6_planning_validation_error
    ⟨fun _ => ([], []), fun _ => .ok ⟨[]⟩,
     fun _ _ => .error (.validationError ['b']), fun _ _ => ⟨0⟩⟩
    ⟨[⟨['q']⟩], [], [], none, [], none⟩ [] ['b'] [] [] [] ⟨['q']⟩ []
    rfl rfl rfl rfl
  exact ⟨h.1, h.2.1⟩

theorem filterMap_spawnPacket_map_spawn (l : List SendPacket) :
    (l.map Event.spawn).filterMap Event.spawnPacket? = l := by
  induction l with
  | nil => rfl
  | cons a t ih => simp [List.filterMap_cons, Event.spawnPacket?, ih]

theorem filterMap_spawnPacket_map_build (l : List SendPacket) :
    (l.map Event.build).filterMap Event.spawnPacket? = [] := by
  induction l with
  | nil => rfl
  | cons a t ih => simp [List.filterMap_cons, Event.spawnPacket?, ih]

theorem filterMap_buildPacket_map_spawn (l : List SendPacket) :
    (l.map Event.spawn).filterMap Event.buildPacket? = [] := by
  induction l with
  | nil => rfl
  | cons a t ih => simp [List.filterMap_cons, Event.buildPacket?, ih]

theorem filterMap_buildPacket_map_build (l : List SendPacket) :
    (l.map Event.build).filterMap Event.buildPacket? = l := by
  induction l with
  | nil => rfl
  | cons a t ih => simp [List.filterMap_cons, Event.buildPacket?, ih]

theorem count_assembled_map_spawn (l : List SendPacket) :
    (l.map Event.spawn).count Event.assembled = 0 := by
  induction l with
  | nil => rfl
  | cons a t ih => simp [List.count_cons, ih]

theorem count_assembled_map_build (l : List SendPacket) :
    (l.map Event.build).count Event.assembled = 0 := by
  induction l with
  | nil => rfl
  | cons a t ih => simp [List.count_cons, ih]

/-- C3: when `dashboard_plan.pages` is empty, `_continue_to_pages` emits
zero Sends and the run still passes through the assemble stage and
completes with a dashboard holding zero pages. -/
theorem C3_empty_plan (env : Env) (st : GraphState) (order : List Nat)
    (meta1 : DfMetadata) (calls : List DfLlmCall) (names : List DfInfo)
    (plan : DashboardPlanner)
    (hstore : store_df_info env st = .ok (meta1, calls, names))
    (hplan : dashboard_plan env { st with df_metadata := meta1 } = .ok plan)
    (hpages : plan.pages = [])
    (hinit : st.pages = []) :
    continue_to_pages
        { st with df_metadata := meta1, dashboard_plan := some plan } =
      .ok [] ∧
    (runGraph env st order).trace = [.summarized, .planned, .assembled] ∧
    (runGraph env st order).error = none ∧
    (runGraph env st order).state.dashboard = some ⟨plan.title, []⟩ := by
  rw [runGraph_ok env st order meta1 calls names plan hstore hplan]
  refine ⟨?_, ?_, rfl, ?_⟩
  · simp only [continue_to_pages, hpages]
    rfl
  · simp [hpages]
  · simp [hpages, hinit]

/-- Closed witness for C3: an empty plan yields a completed run whose
trace reaches the assembler and whose dashboard has zero pages. -/
theorem C3_empty_plan_witness :
    (runGraph envTrivial ⟨[⟨['q']⟩], [], [], none, [], none⟩ []).trace =
      [.summarized, .planned, .assembled] ∧
    (runGraph envTrivial
        ⟨[⟨['q']⟩], [], [], none, [], none⟩ []).state.dashboard =
      some ⟨[], []⟩ := by
  have h := C3_empty_plan envTrivial ⟨[⟨['q']⟩], [], [], none, [], none⟩ []
    [] [] [] ⟨[], []⟩ rfl rfl rfl rfl
  exact ⟨h.2.1, h.2.2.2⟩

/-- C1: for a plan with `k` pages the fan-out emits exactly `k` Sends —
one per element of `dashboard_plan.pages`, in plan order, each carrying
that page plan and the dataset metadata; every branch contributes
exactly one page, merged into `pages` by concatenation; and regardless
of the branch completion order the assembler runs exactly once, strictly
after all `k` contributions have been merged. -/
theorem C1_fanout_fanin (env : Env) (st : GraphState) (order : List Nat)
    (meta1 : DfMetadata) (calls : List DfLlmCall) (names : List DfInfo)
    (plan : DashboardPlanner)
    (hstore : store_df_info env st = .ok (meta1, calls, names))
    (hplan : dashboard_plan env { st with df_metadata := meta1 } = .ok plan)
    (horder : order.Perm (List.range plan.pages.length)) :
    continue_to_pages
        { st with df_metadata := meta1, dashboard_plan := some plan } =
      .ok (plan.pages.map fun v => ⟨v, meta1⟩) ∧
    (runGraph env st order).trace.filterMap Event.spawnPacket? =
      plan.pages.map (fun v => ⟨v, meta1⟩) ∧
    ((runGraph env st order).trace.filterMap Event.buildPacket?).Perm
      (plan.pages.map fun v => ⟨v, meta1⟩) ∧
    (runGraph env st order).state.pages.length =
      st.pages.length + plan.pages.length ∧
    (runGraph env st order).trace.count Event.assembled = 1 ∧
    (runGraph env st order).trace.getLast? = some Event.assembled := by
  have hlen : (plan.pages.map fun v => (⟨v, meta1⟩ : SendPacket)).length =
      plan.pages.length := List.length_map _ _
  have hperm : ((order.filterMap fun i =>
        (plan.pages.map fun v => (⟨v, meta1⟩ : SendPacket))[i]?)).Perm
      (plan.pages.map fun v => ⟨v, meta1⟩) :=
    perm_filterMap_getElem _ order (by rwa [hlen])
  rw [runGraph_ok env st order meta1 calls names plan hstore hplan]
  refine ⟨?_, ?_, ?_, ?_, ?_, ?_⟩
  · simp only [continue_to_pages]
  · rw [List.filterMap_append, List.filterMap_append, List.filterMap_append]
    rw [filterMap_spawnPacket_map_spawn, filterMap_spawnPacket_map_build]
    simp [Event.spawnPacket?]
  · rw [List.filterMap_append, List.filterMap_append, List.filterMap_append]
    rw [filterMap_buildPacket_map_spawn, filterMap_buildPacket_map_build]
    simpa [Event.buildPacket?] using hperm
  · show (st.pages ++ _).length = _
    rw [List.length_append, flatten_map_build_page, List.length_map,
      hperm.length_eq, hlen]
  · rw [List.count_append, List.count_append, List.count_append]
    rw [count_assembled_map_spawn, count_assembled_map_build]
    rfl
  · dsimp only
    exact List.getLast?_concat _

/-- Deterministic stub whose plan has two pages; page builds echo the
page plan's tag. -/
def envTwoPages : Env :=
  { getDfInfo := fun _ => ([], []),
    dfLlm := fun _ => .ok ⟨[]⟩,
    planLlm := fun _ _ => .ok ⟨['t'], [⟨0⟩, ⟨1⟩]⟩,
    buildPage := fun p _ => ⟨p.tag⟩ }

/-- Closed witness for C1: a two-page plan executed with completion
order `[1, 0]` merges both contributions and assembles once. -/
theorem C1_fanout_fanin_witness :
    (runGraph envTwoPages ⟨[⟨['q']⟩], [], [], none, [], none⟩
        [1, 0]).state.pages.length = 0 + 2 ∧
    (runGraph envTwoPages ⟨[⟨['q']⟩], [], [], none, [], none⟩
        [1, 0]).trace.count Event.assembled = 1 := by
  have h := C1_fanout_fanin envTwoPages ⟨[⟨['q']⟩], [], [], none, [], none⟩
    [1, 0] [] [] [] ⟨['t'], [⟨0⟩, ⟨1⟩]⟩ rfl rfl (by decide)
  exact ⟨h.2.2.2.1, h.2.2.2.2.1⟩

/-- C7: the Dataset Summarizer processes datasets strictly in input
order — one structured-completion request per dataset — and the request
for the i-th dataset is supplied the running conversation, that
dataset's schema and sample, and exactly the names assigned to datasets
0 through i-1 in this run. -/
theorem C7_sequential_naming (env : Env) (st : GraphState)
    (m : DfMetadata) (calls : List DfLlmCall) (names : List DfInfo)
    (hok : store_df_info env st = .ok (m, calls, names)) :
    calls.length = st.dfs.length ∧
    names.length = st.dfs.length ∧
    ∀ i : Nat, calls[i]? = (st.dfs[i]?).map fun df =>
      ⟨st.messages, (env.getDfInfo df).1, (env.getDfInfo df).2,
       names.take i⟩ := by
  obtain ⟨nn, hnn, hlen, hclen, hcall⟩ :=
    storeDfLoop_calls env st.messages st.dfs [] st.df_metadata m calls
      names hok
  have hn : names = nn := by simpa using hnn
  subst hn
  exact ⟨hclen, hlen, fun i => by simpa using hcall i⟩

/-- Deterministic stub assigning name `a` to the first dataset and `b`
once a name has already been assigned. -/
def envNames : Env :=
  { getDfInfo := fun _ => ([(['c'], ['t'])], ['s']),
    dfLlm := fun c =>
      .ok ⟨if c.current_df_names.isEmpty then ['a'] else ['b']⟩,
    planLlm := fun _ _ => .ok ⟨[], []⟩,
    buildPage := fun _ _ => ⟨0⟩ }

/-- Closed witness for C7: with two datasets, the second request carries
exactly the name assigned to the first dataset. -/
theorem C7_sequential_naming_witness :
    ([⟨[], [(['c'], ['t'])], ['s'], []⟩,
      ⟨[], [(['c'], ['t'])], ['s'], [⟨['a']⟩]⟩] :
        List DfLlmCall)[1]? =
      some ⟨[], [(['c'], ['t'])], ['s'], [⟨['a']⟩]⟩ := by
  have h := C7_sequential_naming envNames
    ⟨[], [.df 0, .df 1], [], none, [], none⟩
    [(['a'], ⟨[(['c'], ['t'])], .df 0⟩), (['b'], ⟨[(['c'], ['t'])], .df 1⟩)]
    [⟨[], [(['c'], ['t'])], ['s'], []⟩,
     ⟨[], [(['c'], ['t'])], ['s'], [⟨['a']⟩]⟩]
    [⟨['a']⟩, ⟨['b']⟩] rfl
  rw [h.2.2 1]
  rfl

/-- Number of page-build tasks a run of the graph will spawn: the page
count of the plan returned by the planning stage (0 when a stage before
fan-out fails). -/
def numTasks (env : Env) (st0 : GraphState) : Nat :=
  match store_df_info env st0 with
  | .error _ => 0
  | .ok (meta1, _, _) =>
    match dashboard_plan env { st0 with df_metadata := meta1 } with
    | .error _ => 0
    | .ok plan => plan.pages.length

/-- Counterexample to C9 as stated: two runs with the identical initial
state and the same deterministic completion stub, differing only in the
branch completion order (`[0, 1]` vs `[1, 0]`, both valid orders of the
two spawned branches), both complete but produce dashboards that are
not structurally identical — the pages lists are `[⟨0⟩, ⟨1⟩]` and
`[⟨1⟩, ⟨0⟩]`, because the concatenation merge records completion
order. -/
theorem C9_counterexample :
    (runGraph envTwoPages ⟨[⟨['q']⟩], [], [], none, [], none⟩
        [0, 1]).state.dashboard = some ⟨['t'], [⟨0⟩, ⟨1⟩]⟩ ∧
    (runGraph envTwoPages ⟨[⟨['q']⟩], [], [], none, [], none⟩
        [1, 0]).state.dashboard = some ⟨['t'], [⟨1⟩, ⟨0⟩]⟩ ∧
    (runGraph envTwoPages ⟨[⟨['q']⟩], [], [], none, [], none⟩
        [0, 1]).error = none ∧
    (runGraph envTwoPages ⟨[⟨['q']⟩], [], [], none, [], none⟩
        [1, 0]).error = none ∧
    decide ((⟨['t'], [⟨0⟩, ⟨1⟩]⟩ : Dashboard) =
      (⟨['t'], [⟨1⟩, ⟨0⟩]⟩ : Dashboard)) = false :=
  ⟨rfl, rfl, rfl, rfl, rfl⟩

/-- C9 as amended: two runs with the same initial state and the same
deterministic completion stub fail identically or produce dashboards
with the same title, the same page count and the same multiset of
per-page content — the pages lists are permutations of each other,
their order reflecting branch completion order. -/
theorem C9_deterministic (env : Env) (st0 : GraphState) (o1 o2 : List Nat)
    (h1 : o1.Perm (List.range (numTasks env st0)))
    (h2 : o2.Perm (List.range (numTasks env st0))) :
    (runGraph env st0 o1).error = (runGraph env st0 o2).error ∧
    ∀ d1 d2, (runGraph env st0 o1).state.dashboard = some d1 →
      (runGraph env st0 o2).state.dashboard = some d2 →
      d1.title = d2.title ∧ d1.pages.length = d2.pages.length ∧
      d1.pages.Perm d2.pages := by
  cases hstore : store_df_info env st0 with
  | error e =>
    rw [runGraph_storeErr env st0 o1 e hstore,
      runGraph_storeErr env st0 o2 e hstore]
    refine ⟨rfl, fun d1 d2 hd1 hd2 => ?_⟩
    rw [hd1] at hd2
    cases hd2
    exact ⟨rfl, rfl, List.Perm.refl _⟩
  | ok t =>
    obtain ⟨meta1, calls, names⟩ := t
    cases hplan : dashboard_plan env { st0 with df_metadata := meta1 } with
    | error e =>
      rw [runGraph_planErr env st0 o1 meta1 calls names e hstore hplan,
        runGraph_planErr env st0 o2 meta1 calls names e hstore hplan]
      refine ⟨rfl, fun d1 d2 hd1 hd2 => ?_⟩
      rw [hd1] at hd2
      cases hd2
      exact ⟨rfl, rfl, List.Perm.refl _⟩
    | ok plan =>
      have hnum : numTasks env st0 = plan.pages.length := by
        simp only [numTasks, hstore, hplan]
      rw [hnum] at h1 h2
      have hlen : (plan.pages.map fun v => (⟨v, meta1⟩ : SendPacket)).length =
          plan.pages.length := List.length_map _ _
      have hp1 : ((o1.filterMap fun i =>
            (plan.pages.map fun v => (⟨v, meta1⟩ : SendPacket))[i]?)).Perm
          (plan.pages.map fun v => ⟨v, meta1⟩) :=
        perm_filterMap_getElem _ o1 (by rwa [hlen])
      have hp2 : ((o2.filterMap fun i =>
            (plan.pages.map fun v => (⟨v, meta1⟩ : SendPacket))[i]?)).Perm
          (plan.pages.map fun v => ⟨v, meta1⟩) :=
        perm_filterMap_getElem _ o2 (by rwa [hlen])
      have hcc := hp1.trans hp2.symm
      rw [runGraph_ok env st0 o1 meta1 calls names plan hstore hplan,
        runGraph_ok env st0 o2 meta1 calls names plan hstore hplan]
      refine ⟨rfl, fun d1 d2 hd1 hd2 => ?_⟩
      dsimp only at hd1 hd2
      injection hd1 with hd1e
      injection hd2 with hd2e
      subst hd1e
      subst hd2e
      have hpagesPerm :
          (st0.pages ++
            ((o1.filterMap fun i =>
                (plan.pages.map fun v => (⟨v, meta1⟩ : SendPacket))[i]?).map
              fun s => build_page env s).flatten).Perm
          (st0.pages ++
            ((o2.filterMap fun i =>
                (plan.pages.map fun v => (⟨v, meta1⟩ : SendPacket))[i]?).map
              fun s => build_page env s).flatten) := by
        rw [flatten_map_build_page, flatten_map_build_page]
        exact List.Perm.append_left st0.pages
          (hcc.map fun s => env.buildPage s.page_plan s.df_metadata)
      exact ⟨rfl, hpagesPerm.length_eq, hpagesPerm⟩

/-- Closed witness for C9: the two-page run under completion orders
`[0, 1]` and `[1, 0]` yields dashboards with equal title, equal page
count and permuted pages. -/
theorem C9_deterministic_witness :
    (⟨['t'], [⟨0⟩, ⟨1⟩]⟩ : Dashboard).title =
      (⟨['t'], [⟨1⟩, ⟨0⟩]⟩ : Dashboard).title ∧
    (⟨['t'], [⟨0⟩, ⟨1⟩]⟩ : Dashboard).pages.length =
      (⟨['t'], [⟨1⟩, ⟨0⟩]⟩ : Dashboard).pages.length ∧
    (⟨['t'], [⟨0⟩, ⟨1⟩]⟩ : Dashboard).pages.Perm
      (⟨['t'], [⟨1⟩, ⟨0⟩]⟩ : Dashboard).pages :=
  (C9_deterministic envTwoPages ⟨[⟨['q']⟩], [], [], none, [], none⟩
    [0, 1] [1, 0] (by decide) (by decide)).2
    ⟨['t'], [⟨0⟩, ⟨1⟩]⟩ ⟨['t'], [⟨1⟩, ⟨0⟩]⟩ rfl rfl

/-- Stub that names every dataset `!`, so every normalized identifier is
the empty string. -/
def envBang : Env :=
  { getDfInfo := fun _ => ([], []),
    dfLlm := fun _ => .ok ⟨['!']⟩,
    planLlm := fun _ _ => .ok ⟨[], []⟩,
    buildPage := fun _ _ => ⟨0⟩ }

/-- Counterexample to C2 as stated: with two datasets both named `!` by
the completion stub, the summarizer completes, yet the metadata mapping
holds a single entry (not one per input dataset — the second insert
overwrote the first) and its key, the empty string, does not match
`^[a-z0-9_]+$`. -/
theorem C2_counterexample :
    store_df_info envBang ⟨[], [.df 0, .df 1], [], none, [], none⟩ =
      .ok ([([], ⟨[], .df 1⟩)],
        [⟨[], [], [], []⟩, ⟨[], [], [], [⟨['!']⟩]⟩],
        [⟨['!']⟩, ⟨['!']⟩]) ∧
    ([(([] : PyStr), (⟨[], .df 1⟩ : DfMeta))] : DfMetadata).length = 1 ∧
    (⟨[], [.df 0, .df 1], [], none, [], none⟩ : GraphState).dfs.length = 2 ∧
    (([(([] : PyStr), (⟨[], .df 1⟩ : DfMeta))] : DfMetadata).map
        Prod.fst).all matchesIdentPattern = false :=
  ⟨rfl, rfl, rfl, rfl⟩

/-- C2 as amended: for every non-empty dataset list and empty initial
metadata, once the summarizer completes the metadata holds at most one
entry per dataset — exactly one per distinct normalized identifier of
the assigned names, duplicates overwriting — and every key is a
possibly-empty string over `[a-z0-9_]` with no leading or trailing
underscore. -/
theorem C2_amended (env : Env) (st : GraphState) (m : DfMetadata)
    (calls : List DfLlmCall) (names : List DfInfo)
    (hne : st.dfs ≠ [])
    (hmeta0 : st.df_metadata = [])
    (hok : store_df_info env st = .ok (m, calls, names)) :
    names.length = st.dfs.length ∧
    m.length ≤ st.dfs.length ∧
    (m.map Prod.fst).Nodup ∧
    (∀ k, k ∈ m.map Prod.fst ↔
      k ∈ names.map fun n => clean_df_name n.dataset_name) ∧
    ∀ k ∈ m.map Prod.fst, k.all identChar = true ∧
      (∀ c, k.head? = some c → c.toNat ≠ 95) ∧
      (∀ c, k.getLast? = some c → c.toNat ≠ 95) := by
  have hok2 : storeDfLoop env st.messages st.dfs [] [] =
      .ok (m, calls, names) := by
    rw [← hmeta0]
    exact hok
  obtain ⟨nn, hnn, hlen, hclen, _⟩ :=
    storeDfLoop_calls env st.messages st.dfs [] [] m calls names hok2
  obtain ⟨nn2, hnn2, hmlen, hnd, hmem⟩ :=
    storeDfLoop_meta env st.messages st.dfs [] [] m calls names hok2
  have h1 : names = nn := by simpa using hnn
  have h2 : names = nn2 := by simpa using hnn2
  have hkeys : ∀ k, k ∈ m.map Prod.fst ↔
      k ∈ names.map fun n => clean_df_name n.dataset_name := by
    intro k
    rw [hmem k, h2]
    simp
  refine ⟨h1 ▸ hlen, ?_, ?_, hkeys, ?_⟩
  · have : (([] : DfMetadata)).length + st.dfs.length = st.dfs.length := by
      rw [List.length_nil]
      omega
    omega
  · exact hnd (by simp)
  · intro k hk
    rcases List.mem_map.mp ((hkeys k).mp hk) with ⟨n, _, hkn⟩
    subst hkn
    refine ⟨List.all_eq_true.mpr fun c hc => mem_clean_identChar hc, ?_, ?_⟩
    · intro c hc
      exact pyStrip_head_not hc
    · intro c hc
      exact pyStrip_getLast_not hc

/-- Closed witness for C2 (amended): two datasets named `a` and `b`
yield two nodup keys. -/
theorem C2_amended_witness :
    (([(['a'], (⟨[(['c'], ['t'])], .df 0⟩ : DfMeta)),
       (['b'], (⟨[(['c'], ['t'])], .df 1⟩ : DfMeta))] : DfMetadata).map
      Prod.fst).Nodup ∧
    ([⟨['a']⟩, ⟨['b']⟩] : List DfInfo).length =
      (⟨[], [.df 0, .df 1], [], none, [], none⟩ : GraphState).dfs.length :=
  ⟨(C2_amended envNames ⟨[], [.df 0, .df 1], [], none, [], none⟩
      [(['a'], ⟨[(['c'], ['t'])], .df 0⟩), (['b'], ⟨[(['c'], ['t'])], .df 1⟩)]
      [⟨[], [(['c'], ['t'])], ['s'], []⟩,
       ⟨[], [(['c'], ['t'])], ['s'], [⟨['a']⟩]⟩]
      [⟨['a']⟩, ⟨['b']⟩] (by decide) rfl rfl).2.2.1,
   (C2_amended envNames ⟨[], [.df 0, .df 1], [], none, [], none⟩
      [(['a'], ⟨[(['c'], ['t'])], .df 0⟩), (['b'], ⟨[(['c'], ['t'])], .df 1⟩)]
      [⟨[], [(['c'], ['t'])], ['s'], []⟩,
       ⟨[], [(['c'], ['t'])], ['s'], [⟨['a']⟩]⟩]
      [⟨['a']⟩, ⟨['b']⟩] (by decide) rfl rfl).1⟩
